import Mathlib

/-!
Verification of the valibot instruction interpreter and selector synthesizer
(src/valibot/util.py and src/valibot/test_execution.py).

Python strings are modelled as `List Char`; Python dicts (which preserve
insertion order) as association lists `List (List Char × List Char)` built
with dict-assignment semantics (`pyDictInsert`).  The Playwright page is
abstracted by an oracle `pageOk : PageAction → Bool` saying whether a given
browser action succeeds, and by a match-count oracle
`count : List Char → Nat` giving, for an xpath query, how many elements the
live page matches (`page.locator(xpath).all()` length).  Python exceptions
are modelled by `PyErr`.
-/

/-- Python `s.split(sep)` for a one-character separator.  Always returns a
non-empty list of pieces; in particular `"".split(".") == [""]`. -/
def pySplit (sep : Char) : List Char → List (List Char)
  | [] => [[]]
  | c :: cs =>
    if c = sep then [] :: pySplit sep cs
    else
      match pySplit sep cs with
      | [] => [[c]]
      | s :: ss => (c :: s) :: ss

/-- Whether a list starts with the character `c` (one position of the
`all(s[i] == char for s in strings)` check in `find_common_prefix`). -/
def headMatches (c : Char) : List Char → Bool
  | [] => false
  | d :: _ => d == c

/-- The position-by-position simultaneous scan of `find_common_prefix`
(src/valibot/util.py lines 43-48): walk down `s`, the first string, while
every other string has the same character at the current position; stop at
the first disagreement or when any string (the shortest) is exhausted. -/
def lcpAll : List Char → List (List Char) → List Char
  | [], _ => []
  | c :: cs, rest =>
    if rest.all (headMatches c) then c :: lcpAll cs (rest.map List.tail)
    else []

/-- `find_common_prefix` (src/valibot/util.py lines 31-48): longest common
prefix of a list of strings, empty for the empty list. -/
def find_common_prefix : List (List Char) → List Char
  | [] => []
  | s :: rest => lcpAll s rest

/-- Worker for `eraseAll`: scan the string left to right; `skip` characters
are still to be dropped from a match already found.  At `skip = 0`, if the
(non-empty) pattern starts here, drop it and continue after it
(non-overlapping, left-to-right), else keep the character. -/
def eraseAllGo (pat : List Char) : List Char → Nat → List Char
  | [], _ => []
  | c :: cs, skip =>
    match skip with
    | k + 1 => eraseAllGo pat cs k
    | 0 =>
      if pat.isPrefixOf (c :: cs) ∧ pat ≠ [] then eraseAllGo pat cs (pat.length - 1)
      else c :: eraseAllGo pat cs 0

/-- Python `key.replace(pat, '')`: remove every non-overlapping occurrence of
`pat`, scanning left to right (identity when `pat` is empty, as in Python
`s.replace('', '') == s`).  This is the key transformation applied by
`remove_common_prefix` (src/valibot/util.py lines 50-54). -/
def eraseAll (pat s : List Char) : List Char := eraseAllGo pat s 0

/-- Python dict assignment `d[k] = v`: replace the value in place (keeping
the key's first-insertion position) when the key is present, append
otherwise.  A dict comprehension is a fold of such assignments. -/
def pyDictInsert (d : List (List Char × List Char)) (k v : List Char) :
    List (List Char × List Char) :=
  if (d.map Prod.fst).contains k then
    d.map fun p => if p.1 = k then (k, v) else p
  else d ++ [(k, v)]

/-- `remove_common_prefix` (src/valibot/util.py lines 50-54): the dict
comprehension building a new dict keyed by `key.replace(common_prefix, '')`
in the original iteration order. -/
def remove_common_prefix (json_dict : List (List Char × List Char))
    (cp : List Char) : List (List Char × List Char) :=
  json_dict.foldl (fun acc kv => pyDictInsert acc (eraseAll cp kv.1) kv.2) []

/-- A browser action issued by `testExecution`'s dispatch loop:
`page.goto(value)`, `page.fill(selector, value)` or `page.click(selector)`. -/
inductive PageAction : Type
  | navigate (url : List Char)
  | fill (selector : List Char) (value : List Char)
  | click (selector : List Char)
deriving DecidableEq

/-- A Python exception as observed by `testExecution`'s caller: an
out-of-range list index, or a Playwright page/locator failure. -/
inductive PyErr : Type
  | indexError
  | pageError
deriving DecidableEq

/-- Outcome of a run: the browser actions that executed (in order), whether
`context.tracing.start` ran, and whether `context.tracing.stop(path=...)`
ran (i.e. whether the `trace.zip` artifact was written). -/
structure RunState : Type where
  actions : List PageAction
  traceStarted : Bool
  traceStopped : Bool
deriving DecidableEq

/-- Perform one page action against the abstract page: the action is recorded
when the page oracle accepts it, otherwise Playwright raises. -/
def attempt (pageOk : PageAction → Bool) (a : PageAction) : List PageAction × Option PyErr :=
  if pageOk a then ([a], none) else ([], some PyErr.pageError)

/-- The `if key.startswith("url")` block (src/valibot/test_execution.py
lines 50-52): navigate to `value` verbatim. -/
def urlBlock (pageOk : PageAction → Bool) (key value : List Char) :
    List PageAction × Option PyErr :=
  if "url".toList.isPrefixOf key then attempt pageOk (PageAction.navigate value)
  else ([], none)

/-- The `if key.startswith("input")` / `"textarea"` blocks
(src/valibot/test_execution.py lines 53-66), with `tag` the literal
`"input"` or `"textarea"`: split the key on dots, index segment 1 (raising
IndexError when absent, as Python does), and when it starts with
`"placeholder"` fill `tag[placeholder='<segment 2>']` with `value`
(segment 2 raising IndexError when absent).  Other second segments fall
through with no page action.  `fillBlockParts` is the body working on the
already-split key (`input_list` in the source). -/
def fillBlockParts (pageOk : PageAction → Bool) (tag value : List Char) :
    List (List Char) → List PageAction × Option PyErr
  | _ :: s1 :: rest =>
    if "placeholder".toList.isPrefixOf s1 then
      match rest with
      | s2 :: _ =>
        attempt pageOk
          (PageAction.fill (tag ++ "[placeholder='".toList ++ s2 ++ "']".toList) value)
      | [] => ([], some PyErr.indexError)
    else ([], none)
  | _ => ([], some PyErr.indexError)

/-- The guarded `if key.startswith(tag)` fill block: split the key on dots
and hand the pieces to `fillBlockParts`. -/
def fillBlock (pageOk : PageAction → Bool) (tag key value : List Char) :
    List PageAction × Option PyErr :=
  if tag.isPrefixOf key then fillBlockParts pageOk tag value (pySplit '.' key)
  else ([], none)

/-- The `if key.startswith("button")` block (src/valibot/test_execution.py
lines 67-72): click `button[name='<value>']`; the key's split (`input_list`)
is computed but never consulted. -/
def buttonBlock (pageOk : PageAction → Bool) (key value : List Char) :
    List PageAction × Option PyErr :=
  if "button".toList.isPrefixOf key then
    attempt pageOk (PageAction.click ("button[name='".toList ++ value ++ "']".toList))
  else ([], none)

/-- Sequence two blocks of one loop iteration: a raised exception aborts the
rest of the iteration, otherwise actions accumulate. -/
def seqStep (r next : List PageAction × Option PyErr) : List PageAction × Option PyErr :=
  match r with
  | (acc, some e) => (acc, some e)
  | (acc, none) => (acc ++ next.1, next.2)

/-- One iteration of the dispatch loop (src/valibot/test_execution.py lines
47-72): the four independent `if key.startswith(...)` blocks in source
order. -/
def dispatchStep (pageOk : PageAction → Bool) (key value : List Char) :
    List PageAction × Option PyErr :=
  seqStep
    (seqStep
      (seqStep (urlBlock pageOk key value) (fillBlock pageOk "input".toList key value))
      (fillBlock pageOk "textarea".toList key value))
    (buttonBlock pageOk key value)

/-- The `for key, value in testItem.items()` loop: dispatch each normalized
instruction in order; a raised exception aborts the remaining sequence. -/
def runLoop (pageOk : PageAction → Bool) :
    List (List Char × List Char) → List PageAction × Option PyErr
  | [] => ([], none)
  | kv :: rest =>
    match dispatchStep pageOk kv.1 kv.2 with
    | (as, some e) => (as, some e)
    | (as, none) =>
      match runLoop pageOk rest with
      | (bs, r) => (as ++ bs, r)

/-- `testExecution` (src/valibot/test_execution.py lines 24-81), with
`testData` the flattened instruction mapping (the output of the external
`parse_dict`): compute the common prefix, evaluate
`common_prefix.split(".")[-2]` (raising IndexError when the split has fewer
than two pieces, before the browser session opens), strip the prefix,
start tracing, run the loop, and call `context.tracing.stop(path=...)` only
when the loop finishes without an exception — the `except` clause re-raises
without stopping the trace. -/
def testExecution (pageOk : PageAction → Bool)
    (testData : List (List Char × List Char)) : RunState × Option PyErr :=
  let cp := find_common_prefix (testData.map Prod.fst)
  if (pySplit '.' cp).length < 2 then
    (⟨[], false, false⟩, some PyErr.indexError)
  else
    match runLoop pageOk ( remove_common_prefix testData cp) with
    | (as, some e) => (⟨as, true, false⟩, some e)
    | (as, none) => (⟨as, true, true⟩, none)

/-- A page on which every fill raises a locate error (a nonexistent
placeholder) while navigation and clicks succeed. -/
def pageFailFill : PageAction → Bool
  | PageAction.fill _ _ => false
  | _ => true

/-- The attribute dictionary collected for one `input` or `textarea` element
(src/valibot/util.py lines 514-523 and 544-553); `dataTestid` stands for the
source's `data-testid` key. -/
structure ElementFields : Type where
  type : List Char
  name : List Char
  id : List Char
  dataTestid : List Char
  value : List Char
  placeholder : List Char
  required : Bool
  disabled : Bool
deriving DecidableEq

/-- The attribute dictionary collected for one button element
(src/valibot/util.py lines 574-580). -/
structure ButtonData : Type where
  text : List Char
  type : List Char
  name : List Char
  id : List Char
  disabled : Bool
deriving DecidableEq

/-- The xpath template `//<tag>[@<p>='<v>']` used by the scraper's selector
synthesis (src/valibot/util.py lines 526, 556, 585-591). -/
def xpathAttr (tag p v : List Char) : List Char :=
  "//".toList ++ tag ++ "[@".toList ++ p ++ "='".toList ++ v ++ "']".toList

/-- The candidate xpaths for an `input` element in the priority order
`['data-testid', 'id', 'name', 'type']` (src/valibot/util.py line 555). -/
def inputCandidates (d : ElementFields) : List (List Char) :=
  [xpathAttr "input".toList "data-testid".toList d.dataTestid,
   xpathAttr "input".toList "id".toList d.id,
   xpathAttr "input".toList "name".toList d.name,
   xpathAttr "input".toList "type".toList d.type]

/-- The candidate xpaths for a `textarea` element in the priority order
`['data-testid', 'id', 'name', 'type']` (src/valibot/util.py line 525). -/
def textareaCandidates (d : ElementFields) : List (List Char) :=
  [xpathAttr "textarea".toList "data-testid".toList d.dataTestid,
   xpathAttr "textarea".toList "id".toList d.id,
   xpathAttr "textarea".toList "name".toList d.name,
   xpathAttr "textarea".toList "type".toList d.type]

/-- The candidate xpaths for a button element in the priority order
`['id', 'name', 'text', 'type']` (src/valibot/util.py lines 582-593): the
`text` candidate uses `contains(text(), ...)`, the others attribute
equality. -/
def buttonCandidates (d : ButtonData) : List (List Char) :=
  [xpathAttr "button".toList "id".toList d.id,
   xpathAttr "button".toList "name".toList d.name,
   "//button[contains(text(),'".toList ++ d.text ++ "')]".toList,
   xpathAttr "button".toList "type".toList d.type]

/-- The synthesis loop shared by the scraper's element collectors: try the
candidate xpaths in order, query the page (the `count` oracle is the length
of `page.locator(xpath).all()`), and accept the first xpath matching exactly
one element; when no candidate does, the element keeps no `'xpath'` field
(`none`). -/
def synthesizeFirst (count : List Char → Nat) : List (List Char) → Option (List Char)
  | [] => none
  | x :: rest => if count x = 1 then some x else synthesizeFirst count rest

/-- Selector synthesis for one `input` element (src/valibot/util.py lines
554-560). -/
def synthInput (count : List Char → Nat) (d : ElementFields) : Option (List Char) :=
  synthesizeFirst count (inputCandidates d)

/-- Selector synthesis for one `textarea` element (src/valibot/util.py lines
524-530). -/
def synthTextarea (count : List Char → Nat) (d : ElementFields) : Option (List Char) :=
  synthesizeFirst count (textareaCandidates d)

/-- Selector synthesis for one button element (src/valibot/util.py lines
581-597). -/
def synthButton (count : List Char → Nat) (d : ButtonData) : Option (List Char) :=
  synthesizeFirst count (buttonCandidates d)

/-- Whether `pat` occurs as a contiguous substring of `s` at some position
(always true for the empty pattern). -/
def containsPat (pat : List Char) : List Char → Bool
  | [] => pat.isEmpty
  | c :: cs => pat.isPrefixOf (c :: cs) || containsPat pat cs

theorem headMatches_iff {c : Char} {t : List Char} :
    headMatches c t = true ↔ ∃ ts, t = c :: ts := by
  cases t with
  | nil => simp [headMatches]
  | cons d ds =>
    simp only [headMatches, beq_iff_eq]
    constructor
    · intro h
      exact ⟨ds, by rw [h]⟩
    · rintro ⟨ts, h⟩
      exact (List.cons.injEq _ _ _ _ ▸ h).1

theorem lcpAll_prefix_head : ∀ (s : List Char) (rest : List (List Char)),
    lcpAll s rest <+: s := by
  intro s
  induction s with
  | nil => intro rest; simp [lcpAll]
  | cons c cs ih =>
    intro rest
    simp only [lcpAll]
    split
    · exact List.cons_prefix_cons.2 ⟨rfl, ih _⟩
    · exact List.nil_prefix

theorem lcpAll_prefix_mem : ∀ (s : List Char) (rest : List (List Char))
    (t : List Char), t ∈ rest → lcpAll s rest <+: t := by
  intro s
  induction s with
  | nil => intro rest t _; exact List.nil_prefix
  | cons c cs ih =>
    intro rest t ht
    simp only [lcpAll]
    split
    · rename_i hall
      rw [List.all_eq_true] at hall
      obtain ⟨ts, rfl⟩ := headMatches_iff.1 (hall t ht)
      exact List.cons_prefix_cons.2
        ⟨rfl, ih (rest.map List.tail) ts (List.mem_map_of_mem List.tail ht)⟩
    · exact List.nil_prefix

theorem lcpAll_longest : ∀ (q s : List Char) (rest : List (List Char)),
    q <+: s → (∀ t ∈ rest, q <+: t) → q.length ≤ (lcpAll s rest).length := by
  intro q
  induction q with
  | nil => intro s rest _ _; simp
  | cons a q' ih =>
    intro s rest hqs hall
    cases s with
    | nil => exact absurd hqs.length_le (by simp)
    | cons b s' =>
      obtain ⟨rfl, hq's⟩ := List.cons_prefix_cons.1 hqs
      simp only [lcpAll]
      rw [if_pos]
      · simp only [List.length_cons]
        refine Nat.succ_le_succ (ih s' (rest.map List.tail) hq's ?_)
        intro t' ht'
        obtain ⟨t, htmem, rfl⟩ := List.mem_map.1 ht'
        cases t with
        | nil => exact absurd (hall [] htmem).length_le (by simp)
        | cons d ts =>
          obtain ⟨rfl, h⟩ := List.cons_prefix_cons.1 (hall _ htmem)
          exact h
      · rw [List.all_eq_true]
        intro t ht
        cases t with
        | nil => exact absurd (hall [] ht).length_le (by simp)
        | cons d ts =>
          obtain ⟨rfl, _⟩ := List.cons_prefix_cons.1 (hall _ ht)
          exact headMatches_iff.2 ⟨ts, rfl⟩

/-- The common prefix computed by `find_common_prefix` is a prefix of every
string of the input list. -/
theorem find_common_prefix_prefix (l : List (List Char)) :
    ∀ s ∈ l, find_common_prefix l <+: s := by
  cases l with
  | nil => intro s hs; cases hs
  | cons s₀ rest =>
    intro t ht
    rcases List.mem_cons.1 ht with rfl | h
    · exact lcpAll_prefix_head t rest
    · exact lcpAll_prefix_mem s₀ rest t h

theorem eraseAllGo_skip (pat : List Char) :
    ∀ (l r : List Char), eraseAllGo pat (l ++ r) l.length = eraseAllGo pat r 0 := by
  intro l
  induction l with
  | nil => intro r; rfl
  | cons c l' ih => intro r; exact ih r

theorem eraseAllGo_append (pat r : List Char) (hp : pat ≠ []) :
    eraseAllGo pat (pat ++ r) 0 = eraseAllGo pat r 0 := by
  cases pat with
  | nil => exact absurd rfl hp
  | cons p ps =>
    simp only [List.cons_append, eraseAllGo]
    rw [if_pos]
    · have hl : (p :: ps).length - 1 = ps.length := by simp
      rw [hl]
      exact eraseAllGo_skip (p :: ps) ps r
    · refine ⟨?_, by simp⟩
      rw [List.isPrefixOf_iff_prefix]
      exact ⟨r, by simp⟩

theorem eraseAllGo_no_occurrence (pat : List Char) :
    ∀ s, containsPat pat s = false → eraseAllGo pat s 0 = s := by
  intro s
  induction s with
  | nil => intro _; rfl
  | cons c cs ih =>
    intro h
    simp only [containsPat, Bool.or_eq_false_iff] at h
    simp only [eraseAllGo]
    rw [if_neg, ih h.2]
    intro hcon
    rw [h.1] at hcon
    exact Bool.false_ne_true hcon.1

/-- Stripping a leading occurrence of a non-empty pattern that does not recur
in the remainder: `eraseAll pat (pat ++ r) = r`. -/
theorem eraseAll_leading (pat r : List Char) (hp : pat ≠ [])
    (hno : containsPat pat r = false) : eraseAll pat (pat ++ r) = r := by
  unfold eraseAll
  rw [eraseAllGo_append pat r hp, eraseAllGo_no_occurrence pat r hno]

theorem containsPat_nil (r : List Char) : containsPat [] r = true := by
  cases r <;> simp [containsPat, List.isPrefixOf]

theorem pyDictInsert_keys_preserved {acc : List (List Char × List Char)}
    {x : List Char} (k v : List Char) (hx : x ∈ acc.map Prod.fst) :
    x ∈ (pyDictInsert acc k v).map Prod.fst := by
  unfold pyDictInsert
  split
  · rw [List.map_map]
    obtain ⟨p, hp, rfl⟩ := List.mem_map.1 hx
    refine List.mem_map.2 ⟨p, hp, ?_⟩
    by_cases h : p.1 = k
    · simp [h]
    · simp [h]
  · rw [List.map_append]
    exact List.mem_append_left _ hx

theorem pyDictInsert_key_mem (acc : List (List Char × List Char))
    (k v : List Char) : k ∈ (pyDictInsert acc k v).map Prod.fst := by
  unfold pyDictInsert
  split
  · rename_i h
    have hmem : k ∈ acc.map Prod.fst := by simpa using h
    rw [List.map_map]
    obtain ⟨p, hp, hpk⟩ := List.mem_map.1 hmem
    refine List.mem_map.2 ⟨p, hp, ?_⟩
    simp [hpk]
  · rw [List.map_append]
    exact List.mem_append_right _ (by simp)

theorem foldl_pyDictInsert_keys_preserved (cp : List Char)
    (d : List (List Char × List Char)) :
    ∀ (acc : List (List Char × List Char)) (x : List Char),
      x ∈ acc.map Prod.fst →
      x ∈ (d.foldl (fun acc kv => pyDictInsert acc (eraseAll cp kv.1) kv.2)
            acc).map Prod.fst := by
  induction d with
  | nil => intro acc x hx; exact hx
  | cons kv d' ih =>
    intro acc x hx
    exact ih _ x (pyDictInsert_keys_preserved _ _ hx)

theorem foldl_pyDictInsert_key_mem (cp : List Char)
    (d : List (List Char × List Char)) :
    ∀ (acc : List (List Char × List Char)) (k : List Char),
      k ∈ d.map Prod.fst →
      eraseAll cp k ∈ (d.foldl (fun acc kv => pyDictInsert acc (eraseAll cp kv.1) kv.2)
            acc).map Prod.fst := by
  induction d with
  | nil => intro acc k hk; cases hk
  | cons kv d' ih =>
    intro acc k hk
    rcases List.mem_cons.1 hk with h | h
    · rw [List.foldl_cons]
      subst h
      exact foldl_pyDictInsert_keys_preserved cp d' _ _
        (pyDictInsert_key_mem acc (eraseAll cp kv.1) kv.2)
    · exact ih _ k h

/-- Every input key's stripped form is a key of `remove_common_prefix`'s
result. -/
theorem remove_common_prefix_key_mem (d : List (List Char × List Char))
    (cp k : List Char) (hk : k ∈ d.map Prod.fst) :
    eraseAll cp k ∈ ( remove_common_prefix d cp).map Prod.fst :=
  foldl_pyDictInsert_key_mem cp d [] k hk

/-- Claim C4: for every non-empty list of key strings, `find_common_prefix`
returns a string that is a prefix of every input key and such that no
strictly longer string is a prefix of every input key (every common prefix
is at most as long); for the empty list it returns the empty string. -/
theorem C4_lcp_correct (l : List (List Char)) :
    (l ≠ [] →
      (∀ s ∈ l, find_common_prefix l <+: s) ∧
      ∀ q : List Char, (∀ s ∈ l, q <+: s) →
        q.length ≤ ( find_common_prefix l).length) ∧
    (l = [] → find_common_prefix l = []) := by
  constructor
  · intro hne
    obtain ⟨s₀, rest, rfl⟩ := List.exists_cons_of_ne_nil hne
    refine ⟨ find_common_prefix_prefix _, ?_⟩
    intro q hq
    exact lcpAll_longest q s₀ rest (hq s₀ (List.mem_cons_self s₀ rest))
      fun t ht => hq t (List.mem_cons_of_mem s₀ ht)
  · intro h
    subst h
    rfl

/-- Witness for C4 at the concrete key list `["abab", "abc"]`: the computed
prefix `"ab"` is a prefix of `"abab"`, and the common prefix `"a"` is no
longer than it. -/
theorem C4_lcp_correct_witness :
    find_common_prefix ["abab".toList, "abc".toList] <+: "abab".toList ∧
    "a".toList.length ≤ ( find_common_prefix ["abab".toList, "abc".toList]).length :=
  ⟨((C4_lcp_correct ["abab".toList, "abc".toList]).1 (by decide)).1 "abab".toList
      (by simp),
   ((C4_lcp_correct ["abab".toList, "abc".toList]).1 (by decide)).2 "a".toList
      (by decide)⟩

/-- Claim C1 is false as stated: with the mapping
`{"abab": "v", "abc": "w"}` the computed common prefix is `"ab"`, and Python
`"abab".replace("ab", "")` removes both occurrences, storing the key `""`;
reattaching the prefix gives `"ab" ≠ "abab"`.  `remove_common_prefix`
evaluates to `{"": "v", "c": "w"}` on this mapping. -/
theorem C1_counterexample :
    remove_common_prefix [("abab".toList, "v".toList), ("abc".toList, "w".toList)]
        ( find_common_prefix ["abab".toList, "abc".toList]) =
      [([], "v".toList), ("c".toList, "w".toList)] ∧
    ¬ ( find_common_prefix ["abab".toList, "abc".toList] ++
          eraseAll ( find_common_prefix ["abab".toList, "abc".toList])
            "abab".toList =
        "abab".toList) := by
  decide

/-- Claim C1 (amended): reattaching the prefix to the normalized key (the
key `remove_common_prefix` stores, computed by
`key.replace(common_prefix, '')`) reconstructs the original key, provided
the common prefix does not occur again in the key's remainder after the
leading occurrence (Python `replace` removes every occurrence, not only the
leading one); the normalized key is indeed a key of the stripped mapping. -/
theorem C1_amended (d : List (List Char × List Char)) (k : List Char)
    (hk : k ∈ d.map Prod.fst)
    (hno : containsPat ( find_common_prefix (d.map Prod.fst))
        (k.drop ( find_common_prefix (d.map Prod.fst)).length) = false) :
    find_common_prefix (d.map Prod.fst) ++
        eraseAll ( find_common_prefix (d.map Prod.fst)) k = k ∧
    eraseAll ( find_common_prefix (d.map Prod.fst)) k ∈
      ( remove_common_prefix d ( find_common_prefix (d.map Prod.fst))).map
        Prod.fst := by
  refine ⟨?_, remove_common_prefix_key_mem d _ k hk⟩
  obtain ⟨r, rfl⟩ := find_common_prefix_prefix (d.map Prod.fst) k hk
  rw [List.drop_left] at hno
  have hne : find_common_prefix (d.map Prod.fst) ≠ [] := by
    intro h
    rw [h, containsPat_nil] at hno
    exact Bool.noConfusion hno
  rw [eraseAll_leading _ r hne hno]

/-- Witness for C1 (amended) at the mapping `{"run1.url": "h"}`: the single
key is its own common prefix, the stripped key is empty, and reattaching the
prefix reconstructs the key. -/
theorem C1_amended_witness :
    find_common_prefix (([("run1.url".toList, "h".toList)]).map Prod.fst) ++
        eraseAll ( find_common_prefix (([("run1.url".toList, "h".toList)]).map
          Prod.fst)) "run1.url".toList =
      "run1.url".toList :=
  (C1_amended [("run1.url".toList, "h".toList)] "run1.url".toList (by decide)
    (by decide)).1

/-- Claim C2 fails on the code: for the empty mapping, and for a mapping
whose keys share no common prefix, `find_common_prefix` returns `""`, and
`testExecution` then evaluates `common_prefix.split(".")[-2]` —
`"".split(".")` is `[""]`, whose index `-2` raises IndexError.  Zero actions
execute, but the run raises instead of returning normally (the spec's
"treated as an empty run, no error raised" describes the intent; the
assignment to the never-used `last_key` variable is the slip). -/
theorem C2_empty_prefix_raises (pageOk : PageAction → Bool) :
    testExecution pageOk [] = (⟨[], false, false⟩, some PyErr.indexError) ∧
    testExecution pageOk [("url.a".toList, "h".toList), ("b".toList, "c".toList)] =
      (⟨[], false, false⟩, some PyErr.indexError) ∧
    find_common_prefix ["url.a".toList, "b".toList] = [] :=
  ⟨rfl, rfl, rfl⟩

/-- Claim C3 fails on the code: `context.tracing.stop(path=...)` stands only
on the success path after the dispatch loop, not in a `finally` or in the
`except` clause (which logs and re-raises).  On the run
`{"r1.url.x": "h", "r1.input.placeholder.Nm": "v"}` against a page whose
fill fails, the navigation executes, the fill raises, and the error
propagates with the trace started but never stopped — no `trace.zip` is
written. -/
theorem C3_trace_not_stopped_on_failure :
    testExecution pageFailFill
        [("r1.url.x".toList, "h".toList),
         ("r1.input.placeholder.Nm".toList, "v".toList)] =
      (⟨[PageAction.navigate "h".toList], true, false⟩, some PyErr.pageError) := by
  decide

theorem preUrlUrl (kt : List Char) :
    "url".toList.isPrefixOf ("url".toList ++ kt) = true := by
  rw [List.isPrefixOf_iff_prefix]
  exact List.prefix_append _ _

theorem preInputUrl (kt : List Char) :
    "input".toList.isPrefixOf ("url".toList ++ kt) = false := rfl

theorem preTextareaUrl (kt : List Char) :
    "textarea".toList.isPrefixOf ("url".toList ++ kt) = false := rfl

theorem preButtonUrl (kt : List Char) :
    "button".toList.isPrefixOf ("url".toList ++ kt) = false := rfl

theorem preUrlInput (kt : List Char) :
    "url".toList.isPrefixOf ("input".toList ++ kt) = false := rfl

theorem preInputInput (kt : List Char) :
    "input".toList.isPrefixOf ("input".toList ++ kt) = true := by
  rw [List.isPrefixOf_iff_prefix]
  exact List.prefix_append _ _

theorem preTextareaInput (kt : List Char) :
    "textarea".toList.isPrefixOf ("input".toList ++ kt) = false := rfl

theorem preButtonInput (kt : List Char) :
    "button".toList.isPrefixOf ("input".toList ++ kt) = false := rfl

theorem preUrlTextarea (kt : List Char) :
    "url".toList.isPrefixOf ("textarea".toList ++ kt) = false := rfl

theorem preInputTextarea (kt : List Char) :
    "input".toList.isPrefixOf ("textarea".toList ++ kt) = false := rfl

theorem preTextareaTextarea (kt : List Char) :
    "textarea".toList.isPrefixOf ("textarea".toList ++ kt) = true := by
  rw [List.isPrefixOf_iff_prefix]
  exact List.prefix_append _ _

theorem preButtonTextarea (kt : List Char) :
    "button".toList.isPrefixOf ("textarea".toList ++ kt) = false := rfl

theorem preUrlButton (kt : List Char) :
    "url".toList.isPrefixOf ("button".toList ++ kt) = false := rfl

theorem preInputButton (kt : List Char) :
    "input".toList.isPrefixOf ("button".toList ++ kt) = false := rfl

theorem preTextareaButton (kt : List Char) :
    "textarea".toList.isPrefixOf ("button".toList ++ kt) = false := rfl

theorem preButtonButton (kt : List Char) :
    "button".toList.isPrefixOf ("button".toList ++ kt) = true := by
  rw [List.isPrefixOf_iff_prefix]
  exact List.prefix_append _ _

theorem urlBlock_not (pageOk : PageAction → Bool) (key value : List Char)
    (h : "url".toList.isPrefixOf key = false) :
    urlBlock pageOk key value = ([], none) := by
  unfold urlBlock
  rw [h]
  rfl

theorem fillBlock_not (pageOk : PageAction → Bool) (tag key value : List Char)
    (h : tag.isPrefixOf key = false) :
    fillBlock pageOk tag key value = ([], none) := by
  unfold fillBlock
  rw [h]
  rfl

theorem buttonBlock_not (pageOk : PageAction → Bool) (key value : List Char)
    (h : "button".toList.isPrefixOf key = false) :
    buttonBlock pageOk key value = ([], none) := by
  unfold buttonBlock
  rw [h]
  rfl

/-- On a key starting with `"url"`, one dispatch iteration is exactly the
navigation attempt. -/
theorem dispatchStep_url_key (pageOk : PageAction → Bool) (kt value : List Char) :
    dispatchStep pageOk ("url".toList ++ kt) value =
      attempt pageOk (PageAction.navigate value) := by
  unfold dispatchStep
  rw [fillBlock_not pageOk _ _ value (preInputUrl kt),
    fillBlock_not pageOk _ _ value (preTextareaUrl kt),
    buttonBlock_not pageOk _ value (preButtonUrl kt)]
  rw [show urlBlock pageOk ("url".toList ++ kt) value =
      attempt pageOk (PageAction.navigate value) from by simp [urlBlock, preUrlUrl kt]]
  cases ha : attempt pageOk (PageAction.navigate value) with
  | mk as e => cases e <;> simp [seqStep]

/-- On a key starting with `"input"`, one dispatch iteration is exactly the
input fill block. -/
theorem dispatchStep_input_key (pageOk : PageAction → Bool) (kt value : List Char) :
    dispatchStep pageOk ("input".toList ++ kt) value =
      fillBlock pageOk "input".toList ("input".toList ++ kt) value := by
  unfold dispatchStep
  rw [urlBlock_not pageOk _ value (preUrlInput kt),
    fillBlock_not pageOk _ _ value (preTextareaInput kt),
    buttonBlock_not pageOk _ value (preButtonInput kt)]
  cases hf : fillBlock pageOk "input".toList ("input".toList ++ kt) value with
  | mk as e => cases e <;> simp [seqStep]

/-- On a key starting with `"textarea"`, one dispatch iteration is exactly
the textarea fill block. -/
theorem dispatchStep_textarea_key (pageOk : PageAction → Bool) (kt value : List Char) :
    dispatchStep pageOk ("textarea".toList ++ kt) value =
      fillBlock pageOk "textarea".toList ("textarea".toList ++ kt) value := by
  unfold dispatchStep
  rw [urlBlock_not pageOk _ value (preUrlTextarea kt),
    fillBlock_not pageOk "input".toList _ value (preInputTextarea kt),
    buttonBlock_not pageOk _ value (preButtonTextarea kt)]
  cases hf : fillBlock pageOk "textarea".toList ("textarea".toList ++ kt) value with
  | mk as e => cases e <;> simp [seqStep]

/-- On a key starting with `"button"`, one dispatch iteration is exactly the
click attempt on `button[name='<value>']`. -/
theorem dispatchStep_button_key (pageOk : PageAction → Bool) (kt value : List Char) :
    dispatchStep pageOk ("button".toList ++ kt) value =
      attempt pageOk
        (PageAction.click ("button[name='".toList ++ value ++ "']".toList)) := by
  unfold dispatchStep
  rw [urlBlock_not pageOk _ value (preUrlButton kt),
    fillBlock_not pageOk _ _ value (preInputButton kt),
    fillBlock_not pageOk _ _ value (preTextareaButton kt)]
  rw [show buttonBlock pageOk ("button".toList ++ kt) value =
      attempt pageOk
        (PageAction.click ("button[name='".toList ++ value ++ "']".toList)) from by
    simp [buttonBlock, preButtonButton kt]]
  cases ha : attempt pageOk
      (PageAction.click ("button[name='".toList ++ value ++ "']".toList)) with
  | mk as e => cases e <;> simp [seqStep]

theorem fillBlock_eval (pageOk : PageAction → Bool) (tag key value : List Char)
    (hp : tag.isPrefixOf key = true) :
    fillBlock pageOk tag key value = fillBlockParts pageOk tag value (pySplit '.' key) := by
  unfold fillBlock
  rw [hp]
  rfl

theorem fillBlockParts_skip (pageOk : PageAction → Bool)
    (tag value s0 s1 : List Char) (rest : List (List Char))
    (hph : "placeholder".toList.isPrefixOf s1 = false) :
    fillBlockParts pageOk tag value (s0 :: s1 :: rest) = ([], none) := by
  simp only [fillBlockParts]
  rw [hph]
  rfl

theorem fillBlockParts_fill (pageOk : PageAction → Bool)
    (tag value s0 s1 s2 : List Char) (rest : List (List Char))
    (hph : "placeholder".toList.isPrefixOf s1 = true) :
    fillBlockParts pageOk tag value (s0 :: s1 :: s2 :: rest) =
      attempt pageOk
        (PageAction.fill (tag ++ "[placeholder='".toList ++ s2 ++ "']".toList) value) := by
  simp only [fillBlockParts]
  rw [hph]
  rfl

theorem fillBlockParts_short (pageOk : PageAction → Bool)
    (tag value s0 s1 : List Char)
    (hph : "placeholder".toList.isPrefixOf s1 = true) :
    fillBlockParts pageOk tag value [s0, s1] = ([], some PyErr.indexError) := by
  simp only [fillBlockParts]
  rw [hph]
  rfl

/-- Claim C7: for a normalized instruction whose key's first segment starts
with `"input"` or `"textarea"` (the key starts with that tag) and whose key
splits into at least two dot-separated segments: when the second segment
does not start with `"placeholder"`, no page action is performed and no
error is raised; when it does and a third segment exists, the dispatcher
fills exactly the locator `tag[placeholder='<third segment>']` with the
instruction's value. -/
theorem C7_placeholder_fill (pageOk : PageAction → Bool)
    (tag key value s0 s1 : List Char) (restSegs : List (List Char))
    (htag : tag = "input".toList ∨ tag = "textarea".toList)
    (hpre : tag.isPrefixOf key = true)
    (hsplit : pySplit '.' key = s0 :: s1 :: restSegs) :
    ("placeholder".toList.isPrefixOf s1 = false →
      dispatchStep pageOk key value = ([], none)) ∧
    (∀ s2 rest2, restSegs = s2 :: rest2 →
      "placeholder".toList.isPrefixOf s1 = true →
      pageOk (PageAction.fill
        (tag ++ "[placeholder='".toList ++ s2 ++ "']".toList) value) = true →
      dispatchStep pageOk key value =
        ([PageAction.fill (tag ++ "[placeholder='".toList ++ s2 ++ "']".toList)
            value], none)) := by
  rcases htag with rfl | rfl
  · rw [List.isPrefixOf_iff_prefix] at hpre
    obtain ⟨kt, rfl⟩ := hpre
    rw [dispatchStep_input_key pageOk kt value] at *
    constructor
    · intro hph
      rw [fillBlock_eval pageOk _ _ value (preInputInput kt), hsplit,
        fillBlockParts_skip pageOk _ value s0 s1 restSegs hph]
    · intro s2 rest2 hrest hph hok
      subst hrest
      rw [fillBlock_eval pageOk _ _ value (preInputInput kt), hsplit,
        fillBlockParts_fill pageOk _ value s0 s1 s2 rest2 hph]
      unfold attempt
      rw [hok]
      rfl
  · rw [List.isPrefixOf_iff_prefix] at hpre
    obtain ⟨kt, rfl⟩ := hpre
    rw [dispatchStep_textarea_key pageOk kt value] at *
    constructor
    · intro hph
      rw [fillBlock_eval pageOk _ _ value (preTextareaTextarea kt), hsplit,
        fillBlockParts_skip pageOk _ value s0 s1 restSegs hph]
    · intro s2 rest2 hrest hph hok
      subst hrest
      rw [fillBlock_eval pageOk _ _ value (preTextareaTextarea kt), hsplit,
        fillBlockParts_fill pageOk _ value s0 s1 s2 rest2 hph]
      unfold attempt
      rw [hok]
      rfl

/-- Witness for C7: the instruction `"input.placeholder1.Name" ↦ "Bob"` on a
page that accepts every action fills `input[placeholder='Name']` with
`"Bob"`, and `"input.other.x" ↦ "Bob"` performs no action and raises no
error. -/
theorem C7_placeholder_fill_witness :
    dispatchStep (fun _ => true) "input.placeholder1.Name".toList "Bob".toList =
      ([PageAction.fill "input[placeholder='Name']".toList "Bob".toList], none) ∧
    dispatchStep (fun _ => true) "input.other.x".toList "Bob".toList =
      ([], none) :=
  ⟨((C7_placeholder_fill (fun _ => true) "input".toList
      "input.placeholder1.Name".toList "Bob".toList "input".toList
      "placeholder1".toList ["Name".toList] (Or.inl rfl) (by decide)
      (by decide)).2 "Name".toList [] rfl (by decide) rfl).trans (by decide),
   (C7_placeholder_fill (fun _ => true) "input".toList "input.other.x".toList
      "Bob".toList "input".toList "other".toList ["x".toList] (Or.inl rfl)
      (by decide) (by decide)).1 (by decide)⟩

/-- Claim C9: for every key starting with `"button"`, the dispatcher clicks
`button[name='<value>']` — the locator is built from the instruction's
value, and the key-path segments after the category are never consulted:
any two button keys dispatch identically. -/
theorem C9_button_click (pageOk : PageAction → Bool) (value kt kt' : List Char) :
    dispatchStep pageOk ("button".toList ++ kt) value =
      attempt pageOk
        (PageAction.click ("button[name='".toList ++ value ++ "']".toList)) ∧
    dispatchStep pageOk ("button".toList ++ kt) value =
      dispatchStep pageOk ("button".toList ++ kt') value :=
  ⟨dispatchStep_button_key pageOk kt value,
   (dispatchStep_button_key pageOk kt value).trans
     (dispatchStep_button_key pageOk kt' value).symm⟩

/-- Claim C10: a key starting with `"input"` or `"textarea"` whose second
dot-separated segment starts with `"placeholder"` but which has no third
segment makes the dispatcher raise IndexError (the read of
`input_list[2]` is unguarded) instead of silently skipping. -/
theorem C10_missing_segment_raises (pageOk : PageAction → Bool)
    (tag key value s0 s1 : List Char)
    (htag : tag = "input".toList ∨ tag = "textarea".toList)
    (hpre : tag.isPrefixOf key = true)
    (hsplit : pySplit '.' key = [s0, s1])
    (hph : "placeholder".toList.isPrefixOf s1 = true) :
    dispatchStep pageOk key value = ([], some PyErr.indexError) := by
  rcases htag with rfl | rfl
  · rw [List.isPrefixOf_iff_prefix] at hpre
    obtain ⟨kt, rfl⟩ := hpre
    rw [dispatchStep_input_key pageOk kt value,
      fillBlock_eval pageOk _ _ value (preInputInput kt), hsplit,
      fillBlockParts_short pageOk _ value s0 s1 hph]
  · rw [List.isPrefixOf_iff_prefix] at hpre
    obtain ⟨kt, rfl⟩ := hpre
    rw [dispatchStep_textarea_key pageOk kt value,
      fillBlock_eval pageOk _ _ value (preTextareaTextarea kt), hsplit,
      fillBlockParts_short pageOk _ value s0 s1 hph]

/-- Witness for C10: the instruction `"input.placeholder" ↦ "v"` raises
IndexError even on a page accepting every action. -/
theorem C10_missing_segment_raises_witness :
    dispatchStep (fun _ => true) "input.placeholder".toList "v".toList =
      ([], some PyErr.indexError) :=
  C10_missing_segment_raises (fun _ => true) "input".toList
    "input.placeholder".toList "v".toList "input".toList "placeholder".toList
    (Or.inl rfl) (by decide) (by decide) (by decide)

theorem pyDictInsert_append (acc : List (List Char × List Char))
    (k v : List Char) (h : k ∉ acc.map Prod.fst) :
    pyDictInsert acc k v = acc ++ [(k, v)] := by
  have hnc : ¬ ((acc.map Prod.fst).contains k = true) := fun hc => h (by simpa using hc)
  unfold pyDictInsert
  rw [if_neg hnc]

theorem foldl_pyDictInsert_eq_append (cp : List Char) :
    ∀ (d acc : List (List Char × List Char)),
      (∀ kv ∈ d, eraseAll cp kv.1 ∉ acc.map Prod.fst) →
      (d.map fun kv => eraseAll cp kv.1).Nodup →
      d.foldl (fun acc kv => pyDictInsert acc (eraseAll cp kv.1) kv.2) acc =
        acc ++ d.map (fun kv => (eraseAll cp kv.1, kv.2)) := by
  intro d
  induction d with
  | nil => intro acc _ _; simp
  | cons kv d' ih =>
    intro acc hdisj hnd
    have hnd' : (eraseAll cp kv.1 :: d'.map fun kv => eraseAll cp kv.1).Nodup := by
      simpa using hnd
    rw [List.foldl_cons,
      pyDictInsert_append acc _ kv.2 (hdisj kv (List.mem_cons_self _ _))]
    rw [ih (acc ++ [(eraseAll cp kv.1, kv.2)]) ?_ (List.nodup_cons.1 hnd').2]
    · simp
    · intro kv' hkv' hmem
      rw [List.map_append, List.mem_append] at hmem
      rcases hmem with h | h
      · exact hdisj kv' (List.mem_cons_of_mem _ hkv') h
      · have heq : eraseAll cp kv'.1 = eraseAll cp kv.1 := by simpa using h
        exact (List.nodup_cons.1 hnd').1
          (heq ▸ List.mem_map_of_mem (fun kv => eraseAll cp kv.1) hkv')

/-- When stripping leaves the keys pairwise distinct, `remove_common_prefix`
is exactly the order-preserving map that strips each key. -/
theorem remove_common_prefix_nodup (d : List (List Char × List Char))
    (cp : List Char) (hnd : (d.map fun kv => eraseAll cp kv.1).Nodup) :
    remove_common_prefix d cp = d.map fun kv => (eraseAll cp kv.1, kv.2) := by
  unfold remove_common_prefix
  rw [foldl_pyDictInsert_eq_append cp d [] (by simp) hnd]
  simp

/-- When every dispatched instruction succeeds, the loop performs each
instruction's actions in order. -/
theorem runLoop_all_ok (pageOk : PageAction → Bool) :
    ∀ items : List (List Char × List Char),
      (∀ kv ∈ items, (dispatchStep pageOk kv.1 kv.2).2 = none) →
      runLoop pageOk items =
        ((items.map fun kv => (dispatchStep pageOk kv.1 kv.2).1).flatten, none) := by
  intro items
  induction items with
  | nil => intro _; rfl
  | cons kv rest ih =>
    intro h
    have h2 : ∀ kv' ∈ rest, (dispatchStep pageOk kv'.1 kv'.2).2 = none :=
      fun kv' hkv' => h kv' (List.mem_cons_of_mem _ hkv')
    have h1 := h kv (List.mem_cons_self _ _)
    rcases hd : dispatchStep pageOk kv.1 kv.2 with ⟨as, e⟩
    rw [hd] at h1
    simp only at h1
    subst h1
    simp only [runLoop, hd, ih h2, List.map_cons, List.flatten_cons]

/-- Claim C8 is false as stated: in the mapping
`{"r.url.a": "h1", "r.url.b": "h2", "r.r.url.a": "h3"}` every key is a
navigate instruction (each stripped key starts with `"url"`), but the common
prefix `"r."` occurs twice in `"r.r.url.a"`, whose stripped key `"url.a"`
collides with the first key's.  The dict comprehension keeps the first
position with the last value, so the three navigate instructions produce
only two navigations, and the first navigation executed carries `"h3"`, not
`"h1"` — neither the count nor the input order is preserved. -/
theorem C8_counterexample :
    (testExecution (fun _ => true)
        [("r.url.a".toList, "h1".toList), ("r.url.b".toList, "h2".toList),
         ("r.r.url.a".toList, "h3".toList)]).1.actions =
      [PageAction.navigate "h3".toList, PageAction.navigate "h2".toList] ∧
    (∀ kv ∈ [("r.url.a".toList, "h1".toList), ("r.url.b".toList, "h2".toList),
         ("r.r.url.a".toList, "h3".toList)],
      "url".toList.isPrefixOf
        (eraseAll ( find_common_prefix ["r.url.a".toList, "r.url.b".toList,
          "r.r.url.a".toList]) kv.1) = true) ∧
    (testExecution (fun _ => true)
        [("r.url.a".toList, "h1".toList), ("r.url.b".toList, "h2".toList),
         ("r.r.url.a".toList, "h3".toList)]).1.actions.length ≠ 3 := by
  decide

/-- Claim C8 (amended): provided stripping the common prefix leaves the keys
pairwise distinct (no replace-all collision), the prefix splits into at
least two dot pieces (otherwise the `last_key` read raises before the loop),
and every dispatched instruction succeeds, the browser actions are exactly
the per-instruction actions concatenated in the input mapping's insertion
order, and every navigate instruction (stripped key starting with `"url"`)
contributes exactly its one navigation with its own value. -/
theorem C8_order (pageOk : PageAction → Bool) (d : List (List Char × List Char))
    (hdot : ¬ (pySplit '.' ( find_common_prefix (d.map Prod.fst))).length < 2)
    (hnd : (d.map fun kv =>
      eraseAll ( find_common_prefix (d.map Prod.fst)) kv.1).Nodup)
    (hok : ∀ kv ∈ d,
      (dispatchStep pageOk (eraseAll ( find_common_prefix (d.map Prod.fst)) kv.1)
        kv.2).2 = none) :
    testExecution pageOk d =
      (⟨(d.map fun kv =>
          (dispatchStep pageOk
            (eraseAll ( find_common_prefix (d.map Prod.fst)) kv.1) kv.2).1).flatten,
        true, true⟩, none) ∧
    ∀ kv ∈ d,
      "url".toList.isPrefixOf
          (eraseAll ( find_common_prefix (d.map Prod.fst)) kv.1) = true →
      (dispatchStep pageOk (eraseAll ( find_common_prefix (d.map Prod.fst)) kv.1)
          kv.2).1 = [PageAction.navigate kv.2] := by
  constructor
  · simp only [testExecution]
    rw [if_neg hdot, remove_common_prefix_nodup d _ hnd,
      runLoop_all_ok pageOk _ ?_]
    · simp only [List.map_map]
      rfl
    · intro kv' hkv'
      obtain ⟨kv, hkv, rfl⟩ := List.mem_map.1 hkv'
      exact hok kv hkv
  · intro kv hkv hurl
    rw [List.isPrefixOf_iff_prefix] at hurl
    obtain ⟨kt, hkt⟩ := hurl
    have h1 := hok kv hkv
    rw [← hkt] at h1 ⊢
    rw [dispatchStep_url_key pageOk kt kv.2] at h1 ⊢
    unfold attempt at h1 ⊢
    by_cases ho : pageOk (PageAction.navigate kv.2) = true
    · rw [if_pos ho]
    · rw [if_neg ho] at h1
      exact absurd h1 (by simp)

/-- Witness for C8 (amended): three instructions whose stripped keys
`"url.a"`, `"url.b"`, `"y"` are pairwise distinct dispatch in insertion
order: the two navigate instructions produce exactly their two navigations
in input order. -/
theorem C8_order_witness :
    testExecution (fun _ => true)
        [("x.ux.rl.a".toList, "h1".toList), ("x.ux.rl.b".toList, "h2".toList),
         ("x.y".toList, "z".toList)] =
      (⟨[PageAction.navigate "h1".toList, PageAction.navigate "h2".toList],
        true, true⟩, none) :=
  ((C8_order (fun _ => true)
      [("x.ux.rl.a".toList, "h1".toList), ("x.ux.rl.b".toList, "h2".toList),
       ("x.y".toList, "z".toList)] (by decide) (by decide) (by decide)).1).trans
    (by decide)

theorem synthesizeFirst_count_one (count : List Char → Nat) :
    ∀ (l : List (List Char)) (x : List Char),
      synthesizeFirst count l = some x → count x = 1 := by
  intro l
  induction l with
  | nil => intro x h; cases h
  | cons y rest ih =>
    intro x h
    by_cases hy : count y = 1
    · rw [synthesizeFirst, if_pos hy] at h
      cases h
      exact hy
    · rw [synthesizeFirst, if_neg hy] at h
      exact ih x h

theorem synthesizeFirst_none (count : List Char → Nat) :
    ∀ l : List (List Char), (∀ x ∈ l, count x ≠ 1) →
      synthesizeFirst count l = none := by
  intro l
  induction l with
  | nil => intro _; rfl
  | cons y rest ih =>
    intro h
    rw [synthesizeFirst, if_neg (h y (List.mem_cons_self _ _))]
    exact ih fun x hx => h x (List.mem_cons_of_mem _ hx)

/-- Claim C5: selector synthesis for inputs and textareas records an xpath
only when the page query for it returns exactly one match; when every
candidate yields zero or several matches, the element record carries no
selector at all. -/
theorem C5_unique_selector (count : List Char → Nat) (dIn dTa : ElementFields) :
    (∀ xp, synthInput count dIn = some xp → count xp = 1) ∧
    ((∀ xp ∈ inputCandidates dIn, count xp ≠ 1) → synthInput count dIn = none) ∧
    (∀ xp, synthTextarea count dTa = some xp → count xp = 1) ∧
    ((∀ xp ∈ textareaCandidates dTa, count xp ≠ 1) →
      synthTextarea count dTa = none) :=
  ⟨fun xp h => synthesizeFirst_count_one count (inputCandidates dIn) xp h,
   fun h => synthesizeFirst_none count (inputCandidates dIn) h,
   fun xp h => synthesizeFirst_count_one count (textareaCandidates dTa) xp h,
   fun h => synthesizeFirst_none count (textareaCandidates dTa) h⟩

/-- Claim C6: button synthesis tries `id, name, text, type` in that fixed
order and accepts the first candidate matching exactly one element; on a
page where two buttons share `name="submit"` (that xpath matches 2) but
carry distinct ids each matching once, both buttons get their id-based
selector, never the name-based one. -/
theorem C6_button_id_priority (count : List Char → Nat) (d1 d2 : ButtonData)
    (hn1 : d1.name = "submit".toList) (hn2 : d2.name = "submit".toList)
    (hne : d1.id ≠ d2.id)
    (h1 : count (xpathAttr "button".toList "id".toList d1.id) = 1)
    (h2 : count (xpathAttr "button".toList "id".toList d2.id) = 1)
    (hnm : count (xpathAttr "button".toList "name".toList "submit".toList) = 2) :
    buttonCandidates d1 =
      [xpathAttr "button".toList "id".toList d1.id,
       xpathAttr "button".toList "name".toList d1.name,
       "//button[contains(text(),'".toList ++ d1.text ++ "')]".toList,
       xpathAttr "button".toList "type".toList d1.type] ∧
    synthButton count d1 = some (xpathAttr "button".toList "id".toList d1.id) ∧
    synthButton count d2 = some (xpathAttr "button".toList "id".toList d2.id) := by
  refine ⟨rfl, ?_, ?_⟩
  · unfold synthButton buttonCandidates
    rw [synthesizeFirst, if_pos h1]
  · unfold synthButton buttonCandidates
    rw [synthesizeFirst, if_pos h2]

/-- Witness for C6: two concrete buttons with ids `b1`, `b2` and shared name
`submit`, on a page where each id xpath matches once and the name xpath
matches twice, both receive their id xpath. -/
theorem C6_button_id_priority_witness :
    synthButton
        (fun xp =>
          if xp = xpathAttr "button".toList "name".toList "submit".toList then 2
          else 1)
        ⟨"OK".toList, "submit".toList, "submit".toList, "b1".toList, false⟩ =
      some (xpathAttr "button".toList "id".toList "b1".toList) ∧
    synthButton
        (fun xp =>
          if xp = xpathAttr "button".toList "name".toList "submit".toList then 2
          else 1)
        ⟨"Go".toList, "submit".toList, "submit".toList, "b2".toList, false⟩ =
      some (xpathAttr "button".toList "id".toList "b2".toList) :=
  ⟨((C6_button_id_priority
      (fun xp =>
        if xp = xpathAttr "button".toList "name".toList "submit".toList then 2
        else 1)
      ⟨"OK".toList, "submit".toList, "submit".toList, "b1".toList, false⟩
      ⟨"Go".toList, "submit".toList, "submit".toList, "b2".toList, false⟩
      rfl rfl (by decide) (by decide) (by decide) (by decide)).2).1,
   ((C6_button_id_priority
      (fun xp =>
        if xp = xpathAttr "button".toList "name".toList "submit".toList then 2
        else 1)
      ⟨"OK".toList, "submit".toList, "submit".toList, "b1".toList, false⟩
      ⟨"Go".toList, "submit".toList, "submit".toList, "b2".toList, false⟩
      rfl rfl (by decide) (by decide) (by decide) (by decide)).2).2⟩

example : pySplit '.' "".toList = [[]] := by decide
example : pySplit '.' "a.b.".toList = ["a".toList, "b".toList, ([] : List Char)] := by
  decide
example : find_common_prefix ["abab".toList, "abc".toList] = "ab".toList := by decide
example : eraseAll "ab".toList "abab".toList = [] := by decide
example : eraseAll "r.".toList "r.r.url.a".toList = "url.a".toList := by decide
example : eraseAll "x.".toList "x.ux.rl.a".toList = "url.a".toList := by decide
example : eraseAll [] "abc".toList = "abc".toList := by decide
example :
    testExecution (fun _ => true) [] = (⟨[], false, false⟩, some PyErr.indexError) := by
  decide
example :
    dispatchStep (fun _ => true) "input.placeholder1.Name".toList "Bob".toList =
      ([PageAction.fill "input[placeholder='Name']".toList "Bob".toList], none) := by
  decide
example :
    dispatchStep (fun _ => true) "input.placeholder".toList "Bob".toList =
      ([], some PyErr.indexError) := by
  decide
example :
    dispatchStep (fun _ => true) "button.Submit".toList "go".toList =
      ([PageAction.click "button[name='go']".toList], none) := by
  decide
